import Mathlib

/-!
Verification of the page-text extraction routine of `pdfTextExtractor.js`
(`extractTextFromPDF`, in its two drafts: the layout-mode draft at source
lines 100-167 and the text-mode draft at source lines 279-315).

The PDF engine (pdf.js) is modelled as a black box, following the
repository's use of it: a loaded document exposes a page count and a
1-based page fetch that may fail; a page exposes a viewport (as a function
of the requested scale) and a text-content fetch that may fail, yielding a
list of text items `{str, transform, fontName}`.  JS numbers are embedded
as `Int` (every arithmetic operation performed by the routine on them is a
single subtraction and stringification); engine failures are embedded as
`Except` errors carrying the engine's error message.  Each extraction
function additionally returns the ordered list of engine calls it issued,
so that sequencing and early-abort behaviour are visible in the model.
-/

namespace PdfTextExtractor

/-- A page viewport as returned by `page.getViewport({scale})`: a width and
a height in layout units. -/
structure Viewport where
  width : Int
  height : Int
deriving Repr, DecidableEq

/-- One text item of a page's text content: the string, the 6-element
transform matrix (of which the routine reads indices 0, 4 and 5), and the
font name.  Mirrors the fields `str`, `transform`, `fontName` destructured
at source line 133. -/
structure TextItem where
  str : String
  transform : List Int
  fontName : String
deriving Repr, DecidableEq

/-- A loaded page: `getViewport` maps a requested scale to a viewport
(source line 119 requests scale 1.5), and `getTextContent` yields the
page's text items or an engine error (source lines 120 / 298). -/
structure Page where
  getViewport : Rat → Viewport
  getTextContent : Except String (List TextItem)

/-- A loaded document: a page count and a 1-based page fetch that may fail
with an engine error (source lines 117-118 / 296-297). -/
structure PDFDoc where
  numPages : Nat
  getPage : Nat → Except String Page

/-- An observable call into the external engine, recorded with the page
index it concerns. -/
inductive EngineCall where
  | getPage (i : Nat)
  | getTextContent (i : Nat)
deriving Repr, DecidableEq

/-- The page index an engine call concerns. -/
def callPage : EngineCall → Nat
  | EngineCall.getPage i => i
  | EngineCall.getTextContent i => i

/-- The opening of a page-container block, source lines 122-130: the exact
template literal, with `viewport.width` and `viewport.height`
interpolated. -/
def pageHtmlOpen (viewport : Viewport) : String :=
  "<div class=\"pdf-page\" style=\"\n" ++
  "                            position: relative;\n" ++
  "                            width: " ++ toString viewport.width ++ "px;\n" ++
  "                            height: " ++ toString viewport.height ++ "px;\n" ++
  "                            border: 1px solid #ddd;\n" ++
  "                            margin: 20px auto;\n" ++
  "                            background: white;\n" ++
  "                            overflow: hidden;\n" ++
  "                        \">"

/-- The markup appended for one text item, source lines 132-148: the exact
template literal, with `x = transform[4]`, `y = viewport.height -
transform[5]`, `fontSize = transform[0]`, `fontName` and `str`
interpolated verbatim. -/
def itemHtml (viewportHeight : Int) (item : TextItem) : String :=
  let x := item.transform.getD 4 0
  let y := viewportHeight - item.transform.getD 5 0
  let fontSize := item.transform.getD 0 0
  "\n                                <div style=\"\n" ++
  "                                    position: absolute;\n" ++
  "                                    left: " ++ toString x ++ "px;\n" ++
  "                                    top: " ++ toString y ++ "px;\n" ++
  "                                    font-size: " ++ toString fontSize ++ "px;\n" ++
  "                                    font-family: " ++ item.fontName ++ ";\n" ++
  "                                    white-space: nowrap;\n" ++
  "                                \">\n" ++
  "                                    " ++ item.str ++ "\n" ++
  "                                </div>"

/-- One full page block of the layout draft: the opening template, the item
markup accumulated over the items in source order (the `forEach` of source
line 132), and the closing tag appended at source line 151. -/
def pageHtml (viewport : Viewport) (items : List TextItem) : String :=
  pageHtmlOpen viewport ++ String.join (items.map (itemHtml viewport.height)) ++ "</div>"

/-- The page loop of the text-mode draft, source lines 296-301: starting at
page index `i` with `fuel` pages left and accumulator `acc`, fetch the
page, fetch its text content, append the space-joined item strings plus a
blank line, and continue; the first engine error aborts the loop and is
returned as is.  The list component records the engine calls issued, in
order. -/
def extractTextLoop (pdf : PDFDoc) : Nat → Nat → String → List EngineCall × Except String String
  | _, 0, acc => ([], Except.ok acc)
  | i, fuel+1, acc =>
    match pdf.getPage i with
    | Except.error e => ([EngineCall.getPage i], Except.error e)
    | Except.ok page =>
      match page.getTextContent with
      | Except.error e => ([EngineCall.getPage i, EngineCall.getTextContent i], Except.error e)
      | Except.ok items =>
        let textItems := items.map (fun item => item.str)
        let rest := extractTextLoop pdf (i+1) fuel (acc ++ String.intercalate " " textItems ++ "\n\n")
        (EngineCall.getPage i :: EngineCall.getTextContent i :: rest.1, rest.2)

/-- The text-mode extraction, source lines 293-303: run the page loop from
page 1 over `pdf.numPages` pages with an empty accumulator. -/
def extractTextFromPDF (pdf : PDFDoc) : List EngineCall × Except String String :=
  extractTextLoop pdf 1 pdf.numPages ""

/-- The page loop of the layout-mode draft, source lines 117-153: as the
text loop, but the page's viewport is requested at scale 1.5 (source line
119) and the accumulator grows by one full page block per page. -/
def extractLayoutLoop (pdf : PDFDoc) : Nat → Nat → String → List EngineCall × Except String String
  | _, 0, acc => ([], Except.ok acc)
  | i, fuel+1, acc =>
    match pdf.getPage i with
    | Except.error e => ([EngineCall.getPage i], Except.error e)
    | Except.ok page =>
      let viewport := page.getViewport (1.5 : Rat)
      match page.getTextContent with
      | Except.error e => ([EngineCall.getPage i, EngineCall.getTextContent i], Except.error e)
      | Except.ok items =>
        let rest := extractLayoutLoop pdf (i+1) fuel (acc ++ pageHtml viewport items)
        (EngineCall.getPage i :: EngineCall.getTextContent i :: rest.1, rest.2)

/-- The layout-mode extraction, source lines 114-155: run the layout page
loop from page 1 over `pdf.numPages` pages with an empty accumulator. -/
def extractLayoutFromPDF (pdf : PDFDoc) : List EngineCall × Except String String :=
  extractLayoutLoop pdf 1 pdf.numPages ""

/-- Page `i` of `pdf` is fetchable and its observations are described by
`vps i` (the viewport at the scale 1.5 requested by the code) and `its i`
(the text items). -/
def pageOk (pdf : PDFDoc) (vps : Nat → Viewport) (its : Nat → List TextItem) (i : Nat) : Prop :=
  ∃ page, pdf.getPage i = Except.ok page ∧
    page.getViewport (1.5 : Rat) = vps i ∧
    page.getTextContent = Except.ok (its i)

/-- Every page of `pdf` in range 1..numPages is fetchable, with
observations `vps` / `its`. -/
def allPagesOk (pdf : PDFDoc) (vps : Nat → Viewport) (its : Nat → List TextItem) : Prop :=
  ∀ i, 1 ≤ i → i ≤ pdf.numPages → pageOk pdf vps its i

/-- The plain-text segment of page `i`: its item strings joined with a
single space (the `join(' ')` of source line 300). -/
def pageSegment (its : Nat → List TextItem) (i : Nat) : String :=
  String.intercalate " " ((its i).map (fun item => item.str))

/-- The engine-call trace of a fully successful run over `n` pages starting
at page `start`: page fetch then text-content fetch, page by page, in
ascending order. -/
def fullTrace (start n : Nat) : List EngineCall :=
  ((List.range n).map
    (fun k => [EngineCall.getPage (start + k), EngineCall.getTextContent (start + k)])).flatten

/-- The string `pat` occurs contiguously inside `s`. -/
def containsSub (s pat : String) : Prop :=
  ∃ u v, s = u ++ pat ++ v

/-- Boolean prefix test on character lists. -/
def listPrefixB : List Char → List Char → Bool
  | [], _ => true
  | _ :: _, [] => false
  | p :: ps, c :: cs => p == c && listPrefixB ps cs

/-- Boolean contiguous-occurrence test on character lists. -/
def listContainsB (pat : List Char) : List Char → Bool
  | [] => listPrefixB pat []
  | c :: cs => listPrefixB pat (c :: cs) || listContainsB pat cs

/-- Executable substring test on strings. -/
def strContains (s pat : String) : Bool :=
  listContainsB pat.data s.data

/-! Basic facts about `String.join` and `String.intercalate`. -/

theorem sFoldl_append (l : List String) :
    ∀ x : String, l.foldl (fun r s => r ++ s) x = x ++ l.foldl (fun r s => r ++ s) "" := by
  induction l with
  | nil => intro x; simp
  | cons a l ih =>
    intro x
    simp only [List.foldl_cons]
    rw [ih (x ++ a), ih ("" ++ a), String.empty_append, String.append_assoc]

theorem sJoin_cons (a : String) (l : List String) :
    String.join (a :: l) = a ++ String.join l := by
  show (a :: l).foldl (fun r s => r ++ s) "" = a ++ l.foldl (fun r s => r ++ s) ""
  simp only [List.foldl_cons, String.empty_append]
  exact sFoldl_append l a

theorem sJoin_range_succ (g : Nat → String) (n : Nat) :
    String.join ((List.range (n+1)).map g) =
      g 0 ++ String.join ((List.range n).map (fun k => g (k+1))) := by
  rw [List.range_succ_eq_map, List.map_cons, sJoin_cons, List.map_map]
  rfl

theorem intercalate_go_append (sep : String) :
    ∀ (t : List String) (x y : String),
      String.intercalate.go (x ++ y) sep t = x ++ String.intercalate.go y sep t := by
  intro t
  induction t with
  | nil => intro x y; simp [String.intercalate.go]
  | cons c cs ih =>
    intro x y
    show String.intercalate.go (x ++ y ++ sep ++ c) sep cs =
      x ++ String.intercalate.go (y ++ sep ++ c) sep cs
    rw [String.append_assoc, String.append_assoc, ← String.append_assoc y sep c, ih]

theorem intercalate_cons₂ (sep a b : String) (t : List String) :
    String.intercalate sep (a :: b :: t) = a ++ sep ++ String.intercalate sep (b :: t) := by
  show String.intercalate.go a sep (b :: t) = a ++ sep ++ String.intercalate.go b sep t
  show String.intercalate.go (a ++ sep ++ b) sep t = a ++ sep ++ String.intercalate.go b sep t
  rw [String.append_assoc a sep b, intercalate_go_append sep t a (sep ++ b),
    intercalate_go_append sep t sep b, String.append_assoc]

theorem join_map_append_sep (sep : String) (l : List String) (h : l ≠ []) :
    String.join (l.map (fun s => s ++ sep)) = String.intercalate sep l ++ sep := by
  induction l with
  | nil => exact absurd rfl h
  | cons a t ih =>
    match t with
    | [] =>
      show String.join [a ++ sep] = String.intercalate sep [a] ++ sep
      rw [sJoin_cons]
      show a ++ sep ++ String.join [] = a ++ sep
      simp [String.join]
    | b :: t₂ =>
      rw [List.map_cons, sJoin_cons, ih (by simp), intercalate_cons₂]
      simp [String.append_assoc]

/-! Characterisation of a fully successful run of each loop. -/

theorem fullTrace_zero (start : Nat) : fullTrace start 0 = [] := rfl

theorem fullTrace_succ (start n : Nat) :
    fullTrace start (n+1) =
      EngineCall.getPage start :: EngineCall.getTextContent start :: fullTrace (start+1) n := by
  unfold fullTrace
  rw [List.range_succ_eq_map, List.map_cons, List.flatten_cons, List.map_map]
  have h : ((fun k => [EngineCall.getPage (start + k), EngineCall.getTextContent (start + k)]) ∘
      Nat.succ) = (fun k => [EngineCall.getPage (start + 1 + k),
        EngineCall.getTextContent (start + 1 + k)]) := by
    funext k
    have hk : start + Nat.succ k = start + 1 + k := by omega
    simp [Function.comp, hk]
  rw [h]
  rfl

theorem extractTextLoop_ok (pdf : PDFDoc) (vps : Nat → Viewport) (its : Nat → List TextItem) :
    ∀ (fuel start : Nat) (acc : String),
    (∀ k, k < fuel → pageOk pdf vps its (start + k)) →
    extractTextLoop pdf start fuel acc =
      (fullTrace start fuel,
        Except.ok (acc ++
          String.join ((List.range fuel).map (fun k => pageSegment its (start + k) ++ "\n\n")))) := by
  intro fuel
  induction fuel with
  | zero =>
    intro start acc h
    simp [extractTextLoop, fullTrace, String.join]
  | succ n ih =>
    intro start acc h
    obtain ⟨page, hp, hv, ht⟩ := h 0 n.succ_pos
    rw [Nat.add_zero] at hp hv ht
    have h₂ : ∀ k, k < n → pageOk pdf vps its (start + 1 + k) := by
      intro k hk
      have := h (k+1) (Nat.succ_lt_succ hk)
      have he : start + (k + 1) = start + 1 + k := by omega
      rwa [he] at this
    simp only [extractTextLoop, hp, ht]
    rw [ih (start+1) _ h₂, fullTrace_succ]
    have hg : String.join ((List.range (n+1)).map
        (fun k => pageSegment its (start + k) ++ "\n\n")) =
        (pageSegment its start ++ "\n\n") ++
          String.join ((List.range n).map (fun k => pageSegment its (start + 1 + k) ++ "\n\n")) := by
      rw [sJoin_range_succ (fun k => pageSegment its (start + k) ++ "\n\n") n]
      have he : (fun k => pageSegment its (start + (k + 1)) ++ "\n\n") =
          (fun k => pageSegment its (start + 1 + k) ++ "\n\n") := by
        funext k
        have : start + (k + 1) = start + 1 + k := by omega
        rw [this]
      rw [Nat.add_zero, he]
    rw [hg]
    simp [pageSegment, String.append_assoc]

theorem extractLayoutLoop_ok (pdf : PDFDoc) (vps : Nat → Viewport) (its : Nat → List TextItem) :
    ∀ (fuel start : Nat) (acc : String),
    (∀ k, k < fuel → pageOk pdf vps its (start + k)) →
    extractLayoutLoop pdf start fuel acc =
      (fullTrace start fuel,
        Except.ok (acc ++
          String.join ((List.range fuel).map (fun k => pageHtml (vps (start + k)) (its (start + k)))))) := by
  intro fuel
  induction fuel with
  | zero =>
    intro start acc h
    simp [extractLayoutLoop, fullTrace, String.join]
  | succ n ih =>
    intro start acc h
    obtain ⟨page, hp, hv, ht⟩ := h 0 n.succ_pos
    rw [Nat.add_zero] at hp hv ht
    have h₂ : ∀ k, k < n → pageOk pdf vps its (start + 1 + k) := by
      intro k hk
      have := h (k+1) (Nat.succ_lt_succ hk)
      have he : start + (k + 1) = start + 1 + k := by omega
      rwa [he] at this
    simp only [extractLayoutLoop, hp, ht, hv]
    rw [ih (start+1) _ h₂, fullTrace_succ]
    have hg : String.join ((List.range (n+1)).map
        (fun k => pageHtml (vps (start + k)) (its (start + k)))) =
        pageHtml (vps start) (its start) ++
          String.join ((List.range n).map
            (fun k => pageHtml (vps (start + 1 + k)) (its (start + 1 + k)))) := by
      rw [sJoin_range_succ (fun k => pageHtml (vps (start + k)) (its (start + k))) n]
      have he : (fun k => pageHtml (vps (start + (k + 1))) (its (start + (k + 1)))) =
          (fun k => pageHtml (vps (start + 1 + k)) (its (start + 1 + k))) := by
        funext k
        have : start + (k + 1) = start + 1 + k := by omega
        rw [this]
      rw [Nat.add_zero, he]
    rw [hg]
    simp [String.append_assoc]

/-- A failure of the engine at page `start + m`: either the page fetch
itself fails with `e`, or the page is fetched and its text-content fetch
fails with `e`. -/
def pageFails (pdf : PDFDoc) (i : Nat) (e : String) : Prop :=
  pdf.getPage i = Except.error e ∨
    ∃ page, pdf.getPage i = Except.ok page ∧ page.getTextContent = Except.error e

theorem extractTextLoop_fail (pdf : PDFDoc) (vps : Nat → Viewport) (its : Nat → List TextItem)
    (e : String) :
    ∀ (m fuel start : Nat) (acc : String), m < fuel →
    (∀ k, k < m → pageOk pdf vps its (start + k)) →
    pageFails pdf (start + m) e →
    ∃ tr, extractTextLoop pdf start fuel acc = (tr, Except.error e) ∧
      ∀ c ∈ tr, callPage c ≤ start + m := by
  intro m
  induction m with
  | zero =>
    intro fuel start acc hm _ hfail
    match fuel, hm with
    | n+1, _ =>
      rw [Nat.add_zero] at hfail
      rcases hfail with hf | ⟨page, hp, ht⟩
      · refine ⟨[EngineCall.getPage start], ?_, ?_⟩
        · simp [extractTextLoop, hf]
        · intro c hc
          simp at hc
          simp [hc, callPage]
      · refine ⟨[EngineCall.getPage start, EngineCall.getTextContent start], ?_, ?_⟩
        · simp [extractTextLoop, hp, ht]
        · intro c hc
          simp at hc
          rcases hc with hc | hc <;> simp [hc, callPage]
  | succ m ih =>
    intro fuel start acc hm hok hfail
    match fuel, hm with
    | n+1, hm =>
      obtain ⟨page, hp, hv, ht⟩ := hok 0 m.succ_pos
      rw [Nat.add_zero] at hp hv ht
      have hok₂ : ∀ k, k < m → pageOk pdf vps its (start + 1 + k) := by
        intro k hk
        have := hok (k+1) (Nat.succ_lt_succ hk)
        have he : start + (k + 1) = start + 1 + k := by omega
        rwa [he] at this
      have hfail₂ : pageFails pdf (start + 1 + m) e := by
        have he : start + (m + 1) = start + 1 + m := by omega
        rwa [he] at hfail
      obtain ⟨tr, htr, hbound⟩ := ih n (start+1) (acc ++ String.intercalate " "
        ((its start).map (fun item => item.str)) ++ "\n\n") (Nat.lt_of_succ_lt_succ hm) hok₂ hfail₂
      refine ⟨EngineCall.getPage start :: EngineCall.getTextContent start :: tr, ?_, ?_⟩
      · simp only [extractTextLoop, hp, ht, htr]
      · intro c hc
        rcases hc with _ | ⟨_, hc⟩
        · simp only [callPage]; omega
        · rcases hc with _ | ⟨_, hc⟩
          · simp only [callPage]; omega
          · have := hbound c hc
            omega

/-! Substring facts. -/

theorem containsSub_appendLeft (t s pat : String) (h : containsSub s pat) :
    containsSub (t ++ s) pat := by
  obtain ⟨u, v, rfl⟩ := h
  exact ⟨t ++ u, v, by simp [String.append_assoc]⟩

theorem containsSub_appendRight (t s pat : String) (h : containsSub s pat) :
    containsSub (s ++ t) pat := by
  obtain ⟨u, v, rfl⟩ := h
  exact ⟨u, v ++ t, by simp [String.append_assoc]⟩

theorem containsSub_join (l : List String) (s pat : String) (hs : s ∈ l)
    (h : containsSub s pat) : containsSub (String.join l) pat := by
  induction l with
  | nil => cases hs
  | cons a t ih =>
    rw [sJoin_cons]
    rcases hs with _ | ⟨_, hs⟩
    · exact containsSub_appendRight _ _ _ h
    · exact containsSub_appendLeft _ _ _ (ih hs)

theorem listPrefixB_sound : ∀ (pat l : List Char), listPrefixB pat l = true →
    ∃ t, l = pat ++ t := by
  intro pat
  induction pat with
  | nil => intro l _; exact ⟨l, rfl⟩
  | cons p ps ih =>
    intro l h
    match l with
    | [] => simp [listPrefixB] at h
    | c :: cs =>
      simp only [listPrefixB, Bool.and_eq_true, beq_iff_eq] at h
      obtain ⟨t, ht⟩ := ih cs h.2
      exact ⟨t, by rw [h.1, ht]; rfl⟩

theorem listContainsB_sound : ∀ (l pat : List Char), listContainsB pat l = true →
    ∃ u v, l = u ++ pat ++ v := by
  intro l
  induction l with
  | nil =>
    intro pat h
    obtain ⟨t, ht⟩ := listPrefixB_sound pat [] h
    match pat, t, ht with
    | [], [], _ => exact ⟨[], [], rfl⟩
  | cons c cs ih =>
    intro pat h
    simp only [listContainsB, Bool.or_eq_true] at h
    rcases h with h | h
    · obtain ⟨t, ht⟩ := listPrefixB_sound pat (c :: cs) h
      exact ⟨[], t, by rw [ht]; rfl⟩
    · obtain ⟨u, v, huv⟩ := ih pat h
      exact ⟨c :: u, v, by rw [huv]; rfl⟩

theorem containsSub_of_strContains (s pat : String) (h : strContains s pat = true) :
    containsSub s pat := by
  obtain ⟨u, v, huv⟩ := listContainsB_sound s.data pat.data h
  refine ⟨⟨u⟩, ⟨v⟩, ?_⟩
  apply String.ext
  simp [huv]

/-! Decomposition of the emitted templates around each interpolated value.
The short auxiliary equalities split a literal of the template at a
property name, so that the containment witnesses can be assembled by
reassociation alone. -/

theorem splitPx : ("px;\n" : String) = "px" ++ ";\n" := rfl

theorem splitTop :
    ("                                    top: " : String) =
      "                                    " ++ "top: " := rfl

theorem splitLeft36 :
    ("                                    left: " : String) =
      "                                    " ++ "left: " := rfl

theorem splitFontSize :
    ("                                    font-size: " : String) =
      "                                    " ++ "font-size: " := rfl

theorem splitWidth :
    ("                            width: " : String) =
      "                            " ++ "width: " := rfl

theorem splitHeight :
    ("                            height: " : String) =
      "                            " ++ "height: " := rfl

theorem itemHtml_top (H : Int) (it : TextItem) :
    containsSub (itemHtml H it)
      ("top: " ++ toString (H - it.transform.getD 5 0) ++ "px") := by
  refine ⟨"\n                                <div style=\"\n" ++
    "                                    position: absolute;\n" ++
    "                                    left: " ++ toString (it.transform.getD 4 0) ++ "px;\n" ++
    "                                    ",
    ";\n" ++
    "                                    font-size: " ++ toString (it.transform.getD 0 0) ++ "px;\n" ++
    "                                    font-family: " ++ it.fontName ++ ";\n" ++
    "                                    white-space: nowrap;\n" ++
    "                                \">\n" ++
    "                                    " ++ it.str ++ "\n" ++
    "                                </div>", ?_⟩
  simp only [itemHtml]
  rw [splitTop, splitPx]
  simp only [String.append_assoc]

theorem itemHtml_left (H : Int) (it : TextItem) :
    containsSub (itemHtml H it)
      ("left: " ++ toString (it.transform.getD 4 0) ++ "px") := by
  refine ⟨"\n                                <div style=\"\n" ++
    "                                    position: absolute;\n" ++
    "                                    ",
    ";\n" ++
    "                                    top: " ++ toString (H - it.transform.getD 5 0) ++ "px;\n" ++
    "                                    font-size: " ++ toString (it.transform.getD 0 0) ++ "px;\n" ++
    "                                    font-family: " ++ it.fontName ++ ";\n" ++
    "                                    white-space: nowrap;\n" ++
    "                                \">\n" ++
    "                                    " ++ it.str ++ "\n" ++
    "                                </div>", ?_⟩
  simp only [itemHtml]
  rw [splitLeft36, splitPx]
  simp only [String.append_assoc]

theorem itemHtml_fontSize (H : Int) (it : TextItem) :
    containsSub (itemHtml H it)
      ("font-size: " ++ toString (it.transform.getD 0 0) ++ "px") := by
  refine ⟨"\n                                <div style=\"\n" ++
    "                                    position: absolute;\n" ++
    "                                    left: " ++ toString (it.transform.getD 4 0) ++ "px;\n" ++
    "                                    top: " ++ toString (H - it.transform.getD 5 0) ++ "px;\n" ++
    "                                    ",
    ";\n" ++
    "                                    font-family: " ++ it.fontName ++ ";\n" ++
    "                                    white-space: nowrap;\n" ++
    "                                \">\n" ++
    "                                    " ++ it.str ++ "\n" ++
    "                                </div>", ?_⟩
  simp only [itemHtml]
  rw [splitFontSize, splitPx]
  simp only [String.append_assoc]

theorem itemHtml_fontName (H : Int) (it : TextItem) :
    containsSub (itemHtml H it) it.fontName := by
  refine ⟨"\n                                <div style=\"\n" ++
    "                                    position: absolute;\n" ++
    "                                    left: " ++ toString (it.transform.getD 4 0) ++ "px;\n" ++
    "                                    top: " ++ toString (H - it.transform.getD 5 0) ++ "px;\n" ++
    "                                    font-size: " ++ toString (it.transform.getD 0 0) ++ "px;\n" ++
    "                                    font-family: ",
    ";\n" ++
    "                                    white-space: nowrap;\n" ++
    "                                \">\n" ++
    "                                    " ++ it.str ++ "\n" ++
    "                                </div>", ?_⟩
  simp only [itemHtml]
  simp only [String.append_assoc]

theorem itemHtml_str (H : Int) (it : TextItem) :
    containsSub (itemHtml H it) it.str := by
  refine ⟨"\n                                <div style=\"\n" ++
    "                                    position: absolute;\n" ++
    "                                    left: " ++ toString (it.transform.getD 4 0) ++ "px;\n" ++
    "                                    top: " ++ toString (H - it.transform.getD 5 0) ++ "px;\n" ++
    "                                    font-size: " ++ toString (it.transform.getD 0 0) ++ "px;\n" ++
    "                                    font-family: " ++ it.fontName ++ ";\n" ++
    "                                    white-space: nowrap;\n" ++
    "                                \">\n" ++
    "                                    ",
    "\n" ++
    "                                </div>", ?_⟩
  simp only [itemHtml]
  simp only [String.append_assoc]

theorem pageHtmlOpen_width (vp : Viewport) :
    containsSub (pageHtmlOpen vp) ("width: " ++ toString vp.width ++ "px") := by
  refine ⟨"<div class=\"pdf-page\" style=\"\n" ++
    "                            position: relative;\n" ++
    "                            ",
    ";\n" ++
    "                            height: " ++ toString vp.height ++ "px;\n" ++
    "                            border: 1px solid #ddd;\n" ++
    "                            margin: 20px auto;\n" ++
    "                            background: white;\n" ++
    "                            overflow: hidden;\n" ++
    "                        \">", ?_⟩
  simp only [pageHtmlOpen]
  rw [splitWidth, splitPx]
  simp only [String.append_assoc]

theorem pageHtmlOpen_height (vp : Viewport) :
    containsSub (pageHtmlOpen vp) ("height: " ++ toString vp.height ++ "px") := by
  refine ⟨"<div class=\"pdf-page\" style=\"\n" ++
    "                            position: relative;\n" ++
    "                            width: " ++ toString vp.width ++ "px;\n" ++
    "                            ",
    ";\n" ++
    "                            border: 1px solid #ddd;\n" ++
    "                            margin: 20px auto;\n" ++
    "                            background: white;\n" ++
    "                            overflow: hidden;\n" ++
    "                        \">", ?_⟩
  simp only [pageHtmlOpen]
  rw [splitHeight, splitPx]
  simp only [String.append_assoc]

theorem containsSub_pageHtml_ofItem (vp : Viewport) (items : List TextItem) (it : TextItem)
    (hm : it ∈ items) (pat : String) (h : containsSub (itemHtml vp.height it) pat) :
    containsSub (pageHtml vp items) pat := by
  have hmem : itemHtml vp.height it ∈ items.map (itemHtml vp.height) :=
    List.mem_map_of_mem _ hm
  have hj : containsSub (String.join (items.map (itemHtml vp.height))) pat :=
    containsSub_join _ _ _ hmem h
  unfold pageHtml
  exact containsSub_appendRight _ _ _ (containsSub_appendLeft _ _ _ hj)

theorem containsSub_pageHtml_ofOpen (vp : Viewport) (items : List TextItem) (pat : String)
    (h : containsSub (pageHtmlOpen vp) pat) : containsSub (pageHtml vp items) pat := by
  unfold pageHtml
  rw [String.append_assoc]
  exact containsSub_appendRight _ _ _ h

/-- The successful layout output contains any string contained in the block
of a page in range. -/
theorem layout_output_contains (pdf : PDFDoc) (vps : Nat → Viewport) (its : Nat → List TextItem)
    (h : allPagesOk pdf vps its) (i : Nat) (h1 : 1 ≤ i) (h2 : i ≤ pdf.numPages) (pat : String)
    (hc : containsSub (pageHtml (vps i) (its i)) pat) :
    ∃ out, (extractLayoutFromPDF pdf).2 = Except.ok out ∧ containsSub out pat := by
  have hok : ∀ k, k < pdf.numPages → pageOk pdf vps its (1 + k) := by
    intro k hk
    exact h (1+k) (by omega) (by omega)
  have hrun := extractLayoutLoop_ok pdf vps its pdf.numPages 1 "" hok
  refine ⟨String.join ((List.range pdf.numPages).map
    (fun k => pageHtml (vps (1 + k)) (its (1 + k)))), ?_, ?_⟩
  · show (extractLayoutLoop pdf 1 pdf.numPages "").2 = _
    rw [hrun]
    simp
  · have hmem : pageHtml (vps i) (its i) ∈ (List.range pdf.numPages).map
        (fun k => pageHtml (vps (1 + k)) (its (1 + k))) := by
      apply List.mem_map.mpr
      refine ⟨i - 1, List.mem_range.mpr (by omega), ?_⟩
      have he : 1 + (i - 1) = i := by omega
      rw [he]
    exact containsSub_join _ _ _ hmem hc

theorem sJoin_pair (a b : String) : String.join [a, b] = a ++ b := by
  rw [sJoin_cons, sJoin_cons]
  show a ++ (b ++ String.join []) = a ++ b
  rw [show String.join [] = "" from rfl, String.append_empty]

theorem join_map_append_sep_idx (sep : String) (g : Nat → String) (n : Nat) (h : 1 ≤ n) :
    String.join ((List.range n).map (fun k => g k ++ sep)) =
      String.intercalate sep ((List.range n).map g) ++ sep := by
  have hne : (List.range n).map g ≠ [] := by
    simp only [ne_eq, List.map_eq_nil_iff, List.range_eq_nil]
    omega
  have := join_map_append_sep sep ((List.range n).map g) hne
  rw [List.map_map] at this
  exact this

/-! Concrete documents used as evaluation inputs.  `demoDoc` is the 2-page
scenario of the specification; `failDoc` has a failing second page;
`markupDoc` carries markup-significant characters; `scaleDoc` has a
viewport function that is sensitive to the requested scale. -/

def helloItem : TextItem :=
  { str := "Hello", transform := [12, 0, 0, 12, 10, 780], fontName := "F1" }

def worldItem : TextItem :=
  { str := "World", transform := [10, 0, 0, 10, 5, 100], fontName := "F2" }

def vp1 : Viewport := { width := 612, height := 792 }

def vp2 : Viewport := { width := 375, height := 500 }

def page1 : Page :=
  { getViewport := fun _ => vp1, getTextContent := Except.ok [helloItem] }

def page2 : Page :=
  { getViewport := fun _ => vp2, getTextContent := Except.ok [worldItem] }

def demoDoc : PDFDoc :=
  { numPages := 2
    getPage := fun i =>
      if i = 1 then Except.ok page1
      else if i = 2 then Except.ok page2
      else Except.error "no such page" }

def vpsD : Nat → Viewport := fun i => if i = 1 then vp1 else vp2

def itsD : Nat → List TextItem := fun i => if i = 1 then [helloItem] else [worldItem]

theorem demoDoc_allOk : allPagesOk demoDoc vpsD itsD := by
  intro i h1 h2
  have h2' : i ≤ 2 := h2
  have hi : i = 1 ∨ i = 2 := by omega
  rcases hi with rfl | rfl
  · exact ⟨page1, rfl, rfl, rfl⟩
  · exact ⟨page2, rfl, rfl, rfl⟩

def failDoc : PDFDoc :=
  { numPages := 2
    getPage := fun i =>
      if i = 1 then Except.ok page1 else Except.error "engine failure" }

def vpsF : Nat → Viewport := fun _ => vp1

def itsF : Nat → List TextItem := fun _ => [helloItem]

def markupItem : TextItem :=
  { str := "a<b>&c", transform := [7, 0, 0, 7, 3, 20], fontName := "Fo<&nt" }

def pageM : Page :=
  { getViewport := fun _ => { width := 100, height := 200 }
    getTextContent := Except.ok [markupItem] }

def markupDoc : PDFDoc :=
  { numPages := 1
    getPage := fun i => if i = 1 then Except.ok pageM else Except.error "no such page" }

def vpsM : Nat → Viewport := fun _ => { width := 100, height := 200 }

def itsM : Nat → List TextItem := fun _ => [markupItem]

theorem markupDoc_allOk : allPagesOk markupDoc vpsM itsM := by
  intro i h1 h2
  have h2' : i ≤ 1 := h2
  have hi : i = 1 := by omega
  rcases hi with rfl
  exact ⟨pageM, rfl, rfl, rfl⟩

def pageS : Page :=
  { getViewport := fun s =>
      if s = (1.5 : Rat) then { width := 900, height := 1188 }
      else { width := 0, height := 0 }
    getTextContent := Except.ok [helloItem] }

def scaleDoc : PDFDoc :=
  { numPages := 1
    getPage := fun i => if i = 1 then Except.ok pageS else Except.error "no such page" }

def vpsS : Nat → Viewport := fun _ => { width := 900, height := 1188 }

def itsS : Nat → List TextItem := fun _ => [helloItem]

theorem scaleDoc_allOk : allPagesOk scaleDoc vpsS itsS := by
  intro i h1 h2
  have h2' : i ≤ 1 := h2
  have hi : i = 1 := by omega
  rcases hi with rfl
  refine ⟨pageS, rfl, ?_, rfl⟩
  show (if (1.5 : Rat) = (1.5 : Rat) then _ else _) = _
  rw [if_pos rfl]
  rfl

/-! Normalised statements of a successful run, with pages indexed 1..N. -/

theorem extractText_ok_norm (pdf : PDFDoc) (vps : Nat → Viewport) (its : Nat → List TextItem)
    (h : allPagesOk pdf vps its) :
    extractTextFromPDF pdf = (fullTrace 1 pdf.numPages,
      Except.ok (String.join ((List.range pdf.numPages).map
        (fun k => pageSegment its (k+1) ++ "\n\n")))) := by
  have hok : ∀ k, k < pdf.numPages → pageOk pdf vps its (1 + k) := by
    intro k hk
    exact h (1+k) (by omega) (by omega)
  have hrun := extractTextLoop_ok pdf vps its pdf.numPages 1 "" hok
  show extractTextLoop pdf 1 pdf.numPages "" = _
  rw [hrun]
  have he : (fun k => pageSegment its (1+k) ++ "\n\n") =
      (fun k => pageSegment its (k+1) ++ "\n\n") := by
    funext k
    rw [Nat.add_comm]
  rw [String.empty_append, he]

theorem extractLayout_ok_norm (pdf : PDFDoc) (vps : Nat → Viewport) (its : Nat → List TextItem)
    (h : allPagesOk pdf vps its) :
    extractLayoutFromPDF pdf = (fullTrace 1 pdf.numPages,
      Except.ok (String.join ((List.range pdf.numPages).map
        (fun k => pageHtml (vps (k+1)) (its (k+1)))))) := by
  have hok : ∀ k, k < pdf.numPages → pageOk pdf vps its (1 + k) := by
    intro k hk
    exact h (1+k) (by omega) (by omega)
  have hrun := extractLayoutLoop_ok pdf vps its pdf.numPages 1 "" hok
  show extractLayoutLoop pdf 1 pdf.numPages "" = _
  rw [hrun]
  have he : (fun k => pageHtml (vps (1+k)) (its (1+k))) =
      (fun k => pageHtml (vps (k+1)) (its (k+1))) := by
    funext k
    rw [Nat.add_comm]
  rw [String.empty_append, he]

/-! The claim theorems. -/

/-- C1: for every document whose N pages all yield their text content,
text-mode extraction produces the pages in ascending index order 1..N,
each page contributing its item strings joined with a single space, with
consecutive page segments separated by a blank line (two newline
characters); the code additionally emits a final trailing separator. -/
theorem text_mode_pages_in_order_space_joined (pdf : PDFDoc) (vps : Nat → Viewport)
    (its : Nat → List TextItem) (h : allPagesOk pdf vps its) (hn : 1 ≤ pdf.numPages) :
    (extractTextFromPDF pdf).2 =
      Except.ok (String.intercalate "\n\n"
        ((List.range pdf.numPages).map (fun k => pageSegment its (k+1))) ++ "\n\n") := by
  rw [extractText_ok_norm pdf vps its h]
  rw [show ((fullTrace 1 pdf.numPages,
    Except.ok (String.join ((List.range pdf.numPages).map
      (fun k => pageSegment its (k+1) ++ "\n\n")))) :
        List EngineCall × Except String String).2 =
    Except.ok (String.join ((List.range pdf.numPages).map
      (fun k => pageSegment its (k+1) ++ "\n\n"))) from rfl]
  rw [join_map_append_sep_idx "\n\n" (fun k => pageSegment its (k+1)) pdf.numPages hn]

/-- C9: in text mode the page separator is trailing, not infix: the output
is the concatenation over pages 1..N of the space-joined segment followed
by a blank line, and a document with zero pages yields the empty
string. -/
theorem text_mode_trailing_separator (pdf : PDFDoc) (vps : Nat → Viewport)
    (its : Nat → List TextItem) (h : allPagesOk pdf vps its) :
    (extractTextFromPDF pdf).2 =
      Except.ok (String.join ((List.range pdf.numPages).map
        (fun k => pageSegment its (k+1) ++ "\n\n"))) ∧
    (pdf.numPages = 0 → (extractTextFromPDF pdf).2 = Except.ok "") := by
  constructor
  · rw [extractText_ok_norm pdf vps its h]
  · intro h0
    show (extractTextLoop pdf 1 pdf.numPages "").2 = Except.ok ""
    rw [h0]
    rfl

/-- C3: for every document whose N pages all yield their text content,
layout-mode extraction emits exactly N page-container blocks, in ascending
page order, concatenated with no separator, and each block declares the
width and height of that page's viewport. -/
theorem layout_mode_page_blocks (pdf : PDFDoc) (vps : Nat → Viewport)
    (its : Nat → List TextItem) (h : allPagesOk pdf vps its) :
    (extractLayoutFromPDF pdf).2 =
      Except.ok (String.join ((List.range pdf.numPages).map
        (fun k => pageHtml (vps (k+1)) (its (k+1))))) ∧
    (∀ vp l, containsSub (pageHtml vp l) ("width: " ++ toString vp.width ++ "px") ∧
      containsSub (pageHtml vp l) ("height: " ++ toString vp.height ++ "px")) := by
  constructor
  · rw [extractLayout_ok_norm pdf vps its h]
  · intro vp l
    exact ⟨containsSub_pageHtml_ofOpen vp l _ (pageHtmlOpen_width vp),
      containsSub_pageHtml_ofOpen vp l _ (pageHtmlOpen_height vp)⟩

/-- C7: pages are processed strictly sequentially: on a successful run the
trace of engine calls is exactly getPage 1, getTextContent 1, getPage 2,
getTextContent 2, ..., in ascending page order, in both modes; each page's
text content is fetched before the next page is requested. -/
theorem pages_processed_sequentially (pdf : PDFDoc) (vps : Nat → Viewport)
    (its : Nat → List TextItem) (h : allPagesOk pdf vps its) :
    (extractTextFromPDF pdf).1 = fullTrace 1 pdf.numPages ∧
    (extractLayoutFromPDF pdf).1 = fullTrace 1 pdf.numPages := by
  constructor
  · rw [extractText_ok_norm pdf vps its h]
  · rw [extractLayout_ok_norm pdf vps its h]

/-- C6: extraction is deterministic and mutation-free: its result (output
and engine-call trace, in both modes) is a function of the document's
observable data only, so running it twice on the same document yields
identical results; the embedding is pure because the source loop only
reads `numPages`, `getPage`, `getViewport` and `getTextContent` and writes
nothing. -/
theorem extraction_deterministic (d₁ d₂ : PDFDoc) (hn : d₁.numPages = d₂.numPages)
    (hp : ∀ i, d₁.getPage i = d₂.getPage i) :
    extractTextFromPDF d₁ = extractTextFromPDF d₂ ∧
    extractLayoutFromPDF d₁ = extractLayoutFromPDF d₂ := by
  have hd : d₁ = d₂ := by
    obtain ⟨n₁, g₁⟩ := d₁
    obtain ⟨n₂, g₂⟩ := d₂
    simp only at hn hp
    subst hn
    have hg : g₁ = g₂ := funext hp
    rw [hg]
  rw [hd]
  exact ⟨rfl, rfl⟩

/-- C2: for every text item with transform[5] = t on a page whose viewport
height is H, the layout output contains a positioned node whose emitted
y-offset is exactly H - t (the Y-axis flip from bottom-left to top-left
origin). -/
theorem layout_mode_y_flip (pdf : PDFDoc) (vps : Nat → Viewport) (its : Nat → List TextItem)
    (h : allPagesOk pdf vps its) (i : Nat) (h1 : 1 ≤ i) (h2 : i ≤ pdf.numPages)
    (item : TextItem) (hm : item ∈ its i) :
    ∃ out, (extractLayoutFromPDF pdf).2 = Except.ok out ∧
      containsSub out
        ("top: " ++ toString ((vps i).height - item.transform.getD 5 0) ++ "px") :=
  layout_output_contains pdf vps its h i h1 h2 _
    (containsSub_pageHtml_ofItem (vps i) (its i) item hm _ (itemHtml_top (vps i).height item))

/-- C8: in layout mode each item's text string and font name are
interpolated verbatim into the output markup with no escaping: the literal
string and font name of every in-range item occur unchanged as contiguous
substrings of the emitted output. -/
theorem layout_mode_verbatim_interpolation (pdf : PDFDoc) (vps : Nat → Viewport)
    (its : Nat → List TextItem) (h : allPagesOk pdf vps its) (i : Nat)
    (h1 : 1 ≤ i) (h2 : i ≤ pdf.numPages) (item : TextItem) (hm : item ∈ its i) :
    ∃ out, (extractLayoutFromPDF pdf).2 = Except.ok out ∧
      containsSub out item.str ∧ containsSub out item.fontName := by
  obtain ⟨out, ho, hs⟩ := layout_output_contains pdf vps its h i h1 h2 _
    (containsSub_pageHtml_ofItem (vps i) (its i) item hm _ (itemHtml_str (vps i).height item))
  obtain ⟨out₂, ho₂, hf⟩ := layout_output_contains pdf vps its h i h1 h2 _
    (containsSub_pageHtml_ofItem (vps i) (its i) item hm _ (itemHtml_fontName (vps i).height item))
  have he : out = out₂ := by
    rw [ho] at ho₂
    exact (Except.ok.injEq _ _ ▸ ho₂ : _)
  exact ⟨out, ho, hs, he ▸ hf⟩

/-- C10: the layout draft requests the viewport at the fixed scale factor
1.5 — the run is fully determined by each page's viewport at scale 1.5
(that is the value `vps` describes in `allPagesOk`), and the page blocks
declare those scaled dimensions — while each emitted item node carries the
unscaled transform entries: x-offset transform[4], font size transform[0],
and y-offset (scaled viewport height) - transform[5]. -/
theorem layout_mode_fixed_scale_unscaled_items (pdf : PDFDoc) (vps : Nat → Viewport)
    (its : Nat → List TextItem) (h : allPagesOk pdf vps its) :
    extractLayoutFromPDF pdf = (fullTrace 1 pdf.numPages,
      Except.ok (String.join ((List.range pdf.numPages).map
        (fun k => pageHtml (vps (k+1)) (its (k+1)))))) ∧
    (∀ H item,
      containsSub (itemHtml H item)
        ("left: " ++ toString (item.transform.getD 4 0) ++ "px") ∧
      containsSub (itemHtml H item)
        ("font-size: " ++ toString (item.transform.getD 0 0) ++ "px") ∧
      containsSub (itemHtml H item)
        ("top: " ++ toString (H - item.transform.getD 5 0) ++ "px")) := by
  refine ⟨extractLayout_ok_norm pdf vps its h, ?_⟩
  intro H item
  exact ⟨itemHtml_left H item, itemHtml_fontSize H item, itemHtml_top H item⟩

/-- C4 (amended): if the engine's page fetch or text-content fetch fails
for page k with error e, extraction fails by propagating e unchanged (the
error is not swallowed, but it is also not wrapped with the page index),
returns no result, and issues no engine call for any page after k. -/
theorem error_propagated_unwrapped (pdf : PDFDoc) (vps : Nat → Viewport)
    (its : Nat → List TextItem) (k : Nat) (e : String) (h1 : 1 ≤ k) (h2 : k ≤ pdf.numPages)
    (hok : ∀ i, 1 ≤ i → i < k → pageOk pdf vps its i) (hfail : pageFails pdf k e) :
    ∃ tr, extractTextFromPDF pdf = (tr, Except.error e) ∧ ∀ c ∈ tr, callPage c ≤ k := by
  have hm : k - 1 < pdf.numPages := by omega
  have hok₂ : ∀ j, j < k - 1 → pageOk pdf vps its (1 + j) := by
    intro j hj
    exact hok (1+j) (by omega) (by omega)
  have hfail₂ : pageFails pdf (1 + (k - 1)) e := by
    have he : 1 + (k - 1) = k := by omega
    rwa [he]
  obtain ⟨tr, htr, hb⟩ :=
    extractTextLoop_fail pdf vps its e (k-1) pdf.numPages 1 "" hm hok₂ hfail₂
  refine ⟨tr, htr, fun c hc => ?_⟩
  have := hb c hc
  omega

/-- C4 (counterexample): at the concrete two-page document whose second
page fetch fails with the engine error "engine failure", extraction
rejects with exactly that raw engine error: the error value is the
engine's message unchanged, and it references neither the failing page
index 2 nor the word page — so the claim that the engine error is wrapped
with the page index is false of the code. -/
theorem error_not_wrapped_with_page_index :
    (extractTextFromPDF failDoc).2 = Except.error "engine failure" ∧
    strContains "engine failure" "2" = false ∧
    strContains "engine failure" "page" = false := by
  refine ⟨rfl, by decide, by decide⟩

theorem containsSub_congr_pat (s p q : String) (h : p = q) (hc : containsSub s p) :
    containsSub s q := h ▸ hc

/-- C5: the concrete 2-page document of the specification — page 1 with
one item Hello, transform [12,0,0,12,10,780], viewport height 792 and
page 2 with one item World, transform [10,0,0,10,5,100], viewport height
500 — yields in text mode the string Hello, blank line, World, with the
implementation's trailing separator, and in layout mode the page-1 block
followed by the page-2 block, the former containing an element at
(10, 12) with font-size 12 containing Hello and the latter an element at
(5, 400) with font-size 10 containing World. -/
theorem concrete_two_page_scenario :
    (extractTextFromPDF demoDoc).2 = Except.ok "Hello\n\nWorld\n\n" ∧
    (extractLayoutFromPDF demoDoc).2 =
      Except.ok (pageHtml vp1 [helloItem] ++ pageHtml vp2 [worldItem]) ∧
    containsSub (pageHtml vp1 [helloItem]) ("left: 10px") ∧
    containsSub (pageHtml vp1 [helloItem]) ("top: 12px") ∧
    containsSub (pageHtml vp1 [helloItem]) ("font-size: 12px") ∧
    containsSub (pageHtml vp1 [helloItem]) ("Hello") ∧
    containsSub (pageHtml vp2 [worldItem]) ("left: 5px") ∧
    containsSub (pageHtml vp2 [worldItem]) ("top: 400px") ∧
    containsSub (pageHtml vp2 [worldItem]) ("font-size: 10px") ∧
    containsSub (pageHtml vp2 [worldItem]) ("World") := by
  refine ⟨rfl, ?_, ?_, ?_, ?_, ?_, ?_, ?_, ?_, ?_⟩
  · rw [extractLayout_ok_norm demoDoc vpsD itsD demoDoc_allOk]
    show Except.ok (String.join ((List.range demoDoc.numPages).map
      (fun k => pageHtml (vpsD (k+1)) (itsD (k+1))))) = _
    rw [show (List.range demoDoc.numPages).map (fun k => pageHtml (vpsD (k+1)) (itsD (k+1))) =
      [pageHtml vp1 [helloItem], pageHtml vp2 [worldItem]] from rfl]
    rw [sJoin_pair]
  · exact containsSub_pageHtml_ofItem vp1 [helloItem] helloItem (by simp) _
      (containsSub_congr_pat _ _ _ rfl (itemHtml_left vp1.height helloItem))
  · exact containsSub_pageHtml_ofItem vp1 [helloItem] helloItem (by simp) _
      (containsSub_congr_pat _ _ _ rfl (itemHtml_top vp1.height helloItem))
  · exact containsSub_pageHtml_ofItem vp1 [helloItem] helloItem (by simp) _
      (containsSub_congr_pat _ _ _ rfl (itemHtml_fontSize vp1.height helloItem))
  · exact containsSub_pageHtml_ofItem vp1 [helloItem] helloItem (by simp) _
      (containsSub_congr_pat _ _ _ rfl (itemHtml_str vp1.height helloItem))
  · exact containsSub_pageHtml_ofItem vp2 [worldItem] worldItem (by simp) _
      (containsSub_congr_pat _ _ _ rfl (itemHtml_left vp2.height worldItem))
  · exact containsSub_pageHtml_ofItem vp2 [worldItem] worldItem (by simp) _
      (containsSub_congr_pat _ _ _ rfl (itemHtml_top vp2.height worldItem))
  · exact containsSub_pageHtml_ofItem vp2 [worldItem] worldItem (by simp) _
      (containsSub_congr_pat _ _ _ rfl (itemHtml_fontSize vp2.height worldItem))
  · exact containsSub_pageHtml_ofItem vp2 [worldItem] worldItem (by simp) _
      (containsSub_congr_pat _ _ _ rfl (itemHtml_str vp2.height worldItem))

def emptyDoc : PDFDoc :=
  { numPages := 0, getPage := fun _ => Except.error "no such page" }

def vpsE : Nat → Viewport := fun _ => vp1

def itsE : Nat → List TextItem := fun _ => []

theorem emptyDoc_allOk : allPagesOk emptyDoc vpsE itsE := by
  intro i h1 h2
  have h2' : i ≤ 0 := h2
  omega

/-! Witnesses: each claim theorem with hypotheses, applied at a concrete
document. -/

theorem text_mode_pages_in_order_space_joined_witness :
    (extractTextFromPDF demoDoc).2 =
      Except.ok (String.intercalate "\n\n"
        ((List.range demoDoc.numPages).map (fun k => pageSegment itsD (k+1))) ++ "\n\n") :=
  text_mode_pages_in_order_space_joined demoDoc vpsD itsD demoDoc_allOk (by decide)

theorem text_mode_trailing_separator_witness :
    (extractTextFromPDF demoDoc).2 =
      Except.ok (String.join ((List.range demoDoc.numPages).map
        (fun k => pageSegment itsD (k+1) ++ "\n\n"))) ∧
    (extractTextFromPDF emptyDoc).2 = Except.ok "" :=
  ⟨(text_mode_trailing_separator demoDoc vpsD itsD demoDoc_allOk).1,
    (text_mode_trailing_separator emptyDoc vpsE itsE emptyDoc_allOk).2 rfl⟩

theorem layout_mode_page_blocks_witness :
    (extractLayoutFromPDF demoDoc).2 =
      Except.ok (String.join ((List.range demoDoc.numPages).map
        (fun k => pageHtml (vpsD (k+1)) (itsD (k+1))))) ∧
    (containsSub (pageHtml vp1 [helloItem]) ("width: " ++ toString vp1.width ++ "px") ∧
      containsSub (pageHtml vp1 [helloItem]) ("height: " ++ toString vp1.height ++ "px")) :=
  ⟨(layout_mode_page_blocks demoDoc vpsD itsD demoDoc_allOk).1,
    (layout_mode_page_blocks demoDoc vpsD itsD demoDoc_allOk).2 vp1 [helloItem]⟩

theorem pages_processed_sequentially_witness :
    (extractTextFromPDF demoDoc).1 = fullTrace 1 demoDoc.numPages ∧
    (extractLayoutFromPDF demoDoc).1 = fullTrace 1 demoDoc.numPages :=
  pages_processed_sequentially demoDoc vpsD itsD demoDoc_allOk

theorem extraction_deterministic_witness :
    extractTextFromPDF demoDoc = extractTextFromPDF demoDoc ∧
    extractLayoutFromPDF demoDoc = extractLayoutFromPDF demoDoc :=
  extraction_deterministic demoDoc demoDoc rfl (fun _ => rfl)

theorem layout_mode_y_flip_witness :
    ∃ out, (extractLayoutFromPDF demoDoc).2 = Except.ok out ∧
      containsSub out
        ("top: " ++ toString ((vpsD 1).height - helloItem.transform.getD 5 0) ++ "px") :=
  layout_mode_y_flip demoDoc vpsD itsD demoDoc_allOk 1 (by decide) (by decide)
    helloItem (by simp [itsD])

theorem layout_mode_verbatim_interpolation_witness :
    ∃ out, (extractLayoutFromPDF markupDoc).2 = Except.ok out ∧
      containsSub out markupItem.str ∧ containsSub out markupItem.fontName :=
  layout_mode_verbatim_interpolation markupDoc vpsM itsM markupDoc_allOk 1 (by decide)
    (by decide) markupItem (by simp [itsM])

theorem layout_mode_fixed_scale_unscaled_items_witness :
    extractLayoutFromPDF scaleDoc = (fullTrace 1 scaleDoc.numPages,
      Except.ok (String.join ((List.range scaleDoc.numPages).map
        (fun k => pageHtml (vpsS (k+1)) (itsS (k+1)))))) ∧
    (containsSub (itemHtml 1188 helloItem)
        ("left: " ++ toString (helloItem.transform.getD 4 0) ++ "px") ∧
      containsSub (itemHtml 1188 helloItem)
        ("font-size: " ++ toString (helloItem.transform.getD 0 0) ++ "px") ∧
      containsSub (itemHtml 1188 helloItem)
        ("top: " ++ toString (1188 - helloItem.transform.getD 5 0) ++ "px")) :=
  ⟨(layout_mode_fixed_scale_unscaled_items scaleDoc vpsS itsS scaleDoc_allOk).1,
    (layout_mode_fixed_scale_unscaled_items scaleDoc vpsS itsS scaleDoc_allOk).2
      1188 helloItem⟩

theorem error_propagated_unwrapped_witness :
    ∃ tr, extractTextFromPDF failDoc = (tr, Except.error "engine failure") ∧
      ∀ c ∈ tr, callPage c ≤ 2 :=
  error_propagated_unwrapped failDoc vpsF itsF 2 "engine failure" (by decide) (by decide)
    (by
      intro i h1 h2
      have hi : i = 1 := by omega
      rcases hi with rfl
      exact ⟨page1, rfl, rfl, rfl⟩)
    (Or.inl rfl)

end PdfTextExtractor
